import Mathlib

/-!
Verification of the tiered pricing engine.

Shallow embedding of:
* `calculateApplicablePrice` and its helpers from `lib/tieredPricingUtils`
  (the price resolver; its tier records carry a single `quantity` threshold
  together with `unit_price` and an optional `discounted_unit_price`);
* `validateTiers` from `components/ui/tiered-pricing-manager.tsx`
  (the client-side TierSet validator over `min_quantity` / `max_quantity`
  bands);
* the store-side function `update_product_price_tiers` and its inline
  validation block from the migration `20251020030423_turquoise_tooth.sql`
  (atomic replace of a product's tiers inside one transaction, with the
  backstop trigger disabled across the delete+insert);
* the `PricingModeToggle` component's mode-change handlers.

Numbers: quantities are `ℤ` (SQL `integer`, JS integers), prices are `ℚ`
(SQL `decimal`, JS numbers; the code performs no operation that leaves ℚ).
JavaScript's `x || y` on an optional number treats `null`, `undefined` and
`0` as falsy; it is embedded as `jsOr`.  JavaScript's `Array.prototype.sort`
is a stable sort; it is embedded as `List.insertionSort`, which is stable
and sorts ascending with respect to the comparator's key, hence produces
the same list as any stable ascending sort.
-/

namespace TieredPricing

/-- JavaScript `x || y` where `x` is a possibly-absent number: `null`,
`undefined` and `0` are falsy, any other number is truthy. -/
def jsOr (x : Option ℚ) (y : ℚ) : ℚ :=
  match x with
  | none => y
  | some v => if v = 0 then y else v

/-! ## Price resolver (`lib/tieredPricingUtils`, `calculateApplicablePrice`) -/

/-- Tier record as consumed by the resolver: a single quantity threshold
(the field the source reads as `tier.quantity`; callers supply the band's
minimum quantity as this threshold) plus the two price fields. -/
structure RTier where
  quantity : ℤ
  unit_price : ℚ
  discounted_unit_price : Option ℚ
deriving DecidableEq

/-- Result record of `calculateApplicablePrice`. -/
structure TieredPricingResult where
  unitPrice : ℚ
  totalPrice : ℚ
  appliedTier : Option RTier
  savings : ℚ
  nextTier : Option RTier
  nextTierSavings : ℚ
  unitsToNextTier : ℤ
deriving DecidableEq

/-- `[...tiers].sort((a, b) => a.quantity - b.quantity)`: stable ascending
sort on the threshold. -/
def sortRTiers (tiers : List RTier) : List RTier :=
  tiers.insertionSort (fun a b => a.quantity ≤ b.quantity)

instance : DecidableRel (fun a b : RTier => a.quantity ≤ b.quantity) :=
  fun a b => Int.decLe a.quantity b.quantity

/-- `sortedTiers.filter(tier => quantity >= tier.quantity).pop()`: the last
element, in sorted order, whose threshold is at most the quantity. -/
def applicableTierOf (quantity : ℤ) (tiers : List RTier) : Option RTier :=
  ((sortRTiers tiers).filter (fun t => decide (t.quantity ≤ quantity))).getLast?

/-- `sortedTiers.find(tier => tier.quantity > quantity) || null`. -/
def nextTierOf (quantity : ℤ) (tiers : List RTier) : Option RTier :=
  (sortRTiers tiers).find? (fun t => decide (quantity < t.quantity))

/-- `calculateApplicablePrice(quantity, tiers, basePrice, baseDiscountedPrice)`
from `lib/tieredPricingUtils`. -/
def calculateApplicablePrice (quantity : ℤ) (tiers : List RTier)
    (basePrice : ℚ) (baseDiscountedPrice : Option ℚ) : TieredPricingResult :=
  if tiers.isEmpty then
    let unitPrice := jsOr baseDiscountedPrice basePrice
    { unitPrice := unitPrice
      totalPrice := unitPrice * (quantity : ℚ)
      appliedTier := none
      savings := 0
      nextTier := none
      nextTierSavings := 0
      unitsToNextTier := 0 }
  else
    let applicableTier := applicableTierOf quantity tiers
    let unitPrice :=
      match applicableTier with
      | some t => jsOr t.discounted_unit_price t.unit_price
      | none => jsOr baseDiscountedPrice basePrice
    let totalPrice := unitPrice * (quantity : ℚ)
    let baseUnitPrice := jsOr baseDiscountedPrice basePrice
    let baseTotalPrice := baseUnitPrice * (quantity : ℚ)
    let savings := baseTotalPrice - totalPrice
    let nextTier := nextTierOf quantity tiers
    let nextTierSavings :=
      match nextTier with
      | some nt =>
          baseUnitPrice * (nt.quantity : ℚ) -
            jsOr nt.discounted_unit_price nt.unit_price * (nt.quantity : ℚ)
      | none => 0
    let unitsToNextTier :=
      match nextTier with
      | some nt => nt.quantity - quantity
      | none => 0
    { unitPrice := unitPrice
      totalPrice := totalPrice
      appliedTier := applicableTier
      savings := savings
      nextTier := nextTier
      nextTierSavings := nextTierSavings
      unitsToNextTier := unitsToNextTier }

/-! ## Client-side validator (`tiered-pricing-manager.tsx`, `validateTiers`) -/

/-- Tier record as edited in the manager and persisted by the store:
an inclusive `[min_quantity, max_quantity]` band (`none` = unbounded)
with the two price fields. -/
structure PriceTier where
  min_quantity : ℤ
  max_quantity : Option ℤ
  unit_price : ℚ
  discounted_unit_price : Option ℚ
deriving DecidableEq

instance : Inhabited PriceTier := ⟨⟨0, none, 0, none⟩⟩

/-- Error categories of the client validator. -/
inductive ErrType
  | overlap
  | gap
  | invalid_min
  | invalid_max
  | invalid_price
  | invalid_discount
deriving DecidableEq

/-- The validator's message strings, abstracted to the template used and the
values interpolated into it (indices are 0-based positions in the sorted
order; the rendered text shows them 1-based). -/
inductive Msg
  | firstTierMustStartAtOne
  | minMustBePositive (i : Nat)
  | maxMustExceedMin (i : Nat)
  | priceMustBePositive (i : Nat)
  | discountMustBePositive (i : Nat)
  | discountMustBeBelowPrice (i : Nat)
  | overlapBetween (i j : Nat)
  | gapBetween (i : Nat) (endQ startQ : ℤ)
  | onlyLastTierUnlimited
deriving DecidableEq

/-- One entry of the `ValidationError[]` the client validator returns. -/
structure ValidationError where
  type : ErrType
  message : Msg
  tierIndex : Option Nat
deriving DecidableEq

instance : DecidableRel (fun a b : PriceTier => a.min_quantity ≤ b.min_quantity) :=
  fun a b => Int.decLe a.min_quantity b.min_quantity

/-- `[...tiersToValidate].sort((a, b) => a.min_quantity - b.min_quantity)`. -/
def sortTiers (l : List PriceTier) : List PriceTier :=
  l.insertionSort (fun a b => a.min_quantity ≤ b.min_quantity)

/-- `sortedTiers[i]` (the loops only index within bounds). -/
def tierAt (s : List PriceTier) (i : Nat) : PriceTier :=
  s.getD i default

/-- `min ≤ (max ?? Infinity)`: comparison against a possibly-unbounded
inclusive upper bound, `none` standing for `Infinity`. -/
def leMaxInf (a : ℤ) (m : Option ℤ) : Prop :=
  match m with
  | some v => a ≤ v
  | none => True

instance (a : ℤ) (m : Option ℤ) : Decidable (leMaxInf a m) := by
  unfold leMaxInf
  cases m <;> infer_instance

/-- The client validator's pairwise overlap test:
`tier.min_quantity <= otherMax && tierMax >= otherTier.min_quantity`
with `Infinity` substituted for an absent bound. -/
def tiersOverlap (t u : PriceTier) : Prop :=
  leMaxInf t.min_quantity u.max_quantity ∧ leMaxInf u.min_quantity t.max_quantity

instance (t u : PriceTier) : Decidable (tiersOverlap t u) := by
  unfold tiersOverlap
  infer_instance

/-- Per-tier checks of the `for (let i ...)` loop body: `invalid_min`,
`invalid_max`, `invalid_price` and the two `invalid_discount` pushes, in
source order. -/
def tierChecks (s : List PriceTier) (i : Nat) : List ValidationError :=
  let tier := tierAt s i
  (if tier.min_quantity ≤ 0 then
      [⟨.invalid_min, .minMustBePositive i, some i⟩] else [])
  ++ (if tier.max_quantity.elim false (fun m => decide (m ≤ tier.min_quantity)) then
      [⟨.invalid_max, .maxMustExceedMin i, some i⟩] else [])
  ++ (if tier.unit_price ≤ 0 then
      [⟨.invalid_price, .priceMustBePositive i, some i⟩] else [])
  ++ (match tier.discounted_unit_price with
      | none => []
      | some d =>
        (if d ≤ 0 then
            [⟨.invalid_discount, .discountMustBePositive i, some i⟩] else [])
        ++ (if tier.unit_price ≤ d then
            [⟨.invalid_discount, .discountMustBeBelowPrice i, some i⟩] else []))

/-- The inner `for (let j = i + 1 ...)` overlap loop: one `overlap` error per
later index `j` whose band overlaps band `i`. -/
def overlapChecks (s : List PriceTier) (i : Nat) : List ValidationError :=
  (List.range' (i + 1) (s.length - (i + 1))).filterMap (fun j =>
    if tiersOverlap (tierAt s i) (tierAt s j) then
      some ⟨.overlap, .overlapBetween i j, some i⟩
    else none)

/-- The gap check between consecutive sorted tiers. -/
def gapCheck (s : List PriceTier) (i : Nat) : List ValidationError :=
  if i + 1 < s.length then
    match (tierAt s i).max_quantity with
    | none => []
    | some m =>
      if (tierAt s (i + 1)).min_quantity ≠ m + 1 then
        [⟨.gap, .gapBetween i m (tierAt s (i + 1)).min_quantity, some i⟩]
      else []
  else []

/-- `sortedTiers[0].min_quantity !== 1` check (start-at-1 policy). -/
def startCheck (s : List PriceTier) : List ValidationError :=
  if (tierAt s 0).min_quantity ≠ 1 then
    [⟨.invalid_min, .firstTierMustStartAtOne, some 0⟩]
  else []

/-- The final single-unbounded-tier check. -/
def nullMaxCheck (s : List PriceTier) : List ValidationError :=
  if 1 < (s.filter (fun t => t.max_quantity.isNone)).length then
    [⟨.invalid_max, .onlyLastTierUnlimited, none⟩]
  else []

/-- `validateTiers` from `tiered-pricing-manager.tsx`: early return on the
empty list, then all checks over the list sorted by `min_quantity`, with
errors accumulated in source push order. -/
def validateTiers (tiersToValidate : List PriceTier) : List ValidationError :=
  if tiersToValidate.isEmpty then []
  else
    let s := sortTiers tiersToValidate
    startCheck s
    ++ (List.range s.length).flatMap
        (fun i => tierChecks s i ++ overlapChecks s i ++ gapCheck s i)
    ++ nullMaxCheck s

/-! ## Store side (`update_product_price_tiers`, turquoise_tooth migration) -/

/-- The errors `RAISE EXCEPTION` can produce in `update_product_price_tiers`,
one constructor per RAISE site, in source order. -/
inductive StoreErr
  | atLeastOneTierRequired
  | productMustHaveTier
  | onlyLastUnlimited
  | overlappingRanges
  | minNotBelowMax
  | nonPositivePrice
  | discountNotBelowPrice
deriving DecidableEq

/-- The SQL overlap test of the validation block:
`t1.min_quantity <= COALESCE(t2.max_quantity, 999999) AND
 COALESCE(t1.max_quantity, 999999) >= t2.min_quantity`. -/
def sqlOverlap (t u : PriceTier) : Prop :=
  t.min_quantity ≤ u.max_quantity.getD 999999 ∧
    u.min_quantity ≤ t.max_quantity.getD 999999

instance (t u : PriceTier) : Decidable (sqlOverlap t u) := by
  unfold sqlOverlap
  infer_instance

/-- The `EXISTS` overlap query: some pair of distinct rows (`t1.id != t2.id`;
row identity is modelled by list position) passes `sqlOverlap`. -/
def hasOverlaps (rows : List PriceTier) : Bool :=
  (List.range rows.length).any (fun i =>
    (List.range rows.length).any (fun j =>
      decide (i ≠ j) && decide (sqlOverlap (tierAt rows i) (tierAt rows j))))

/-- The manual validation block of `update_product_price_tiers` run against
the rows just inserted for the product, checks in source order; `none` means
no exception is raised.  SQL three-valued logic: `discounted_unit_price <= 0`
and `discounted_unit_price >= unit_price` select a row only when the column
is non-NULL. -/
def storeValidate (rows : List PriceTier) : Option StoreErr :=
  if rows.length = 0 then some .productMustHaveTier
  else if 1 < (rows.filter (fun t => t.max_quantity.isNone)).length then
    some .onlyLastUnlimited
  else if hasOverlaps rows then some .overlappingRanges
  else if rows.any (fun t =>
      t.max_quantity.elim false (fun m => decide (m ≤ t.min_quantity))) then
    some .minNotBelowMax
  else if rows.any (fun t =>
      decide (t.unit_price ≤ 0) ||
        t.discounted_unit_price.elim false (fun d => decide (d ≤ 0))) then
    some .nonPositivePrice
  else if rows.any (fun t =>
      t.discounted_unit_price.elim false (fun d => decide (t.unit_price ≤ d))) then
    some .discountNotBelowPrice
  else none

/-- One row of the `product_price_tiers` table. -/
structure TierRow where
  product_id : Nat
  tier : PriceTier
deriving DecidableEq

/-- The persistent state the function touches: the tier table plus the
enabled/disabled state of `validate_price_tiers_trigger`. -/
structure DB where
  rows : List TierRow
  triggerEnabled : Bool
deriving DecidableEq

/-- The rows of one product, in table order. -/
def productRows (db : DB) (pid : Nat) : List PriceTier :=
  (db.rows.filter (fun r => r.product_id == pid)).map (fun r => r.tier)

/-- The body of `update_product_price_tiers`, step by step in source order:
empty-input check, DISABLE TRIGGER, DELETE, INSERT loop, ENABLE TRIGGER,
manual validation of the just-inserted rows; `RAISE EXCEPTION` is `.error`. -/
def updateBody (db : DB) (pid : Nat) (input : List PriceTier) :
    Except StoreErr (DB × List PriceTier) :=
  if input.length = 0 then .error .atLeastOneTierRequired
  else
    let db1 : DB := { db with triggerEnabled := false }
    let db2 : DB := { db1 with rows := db1.rows.filter (fun r => !(r.product_id == pid)) }
    let db3 : DB := { db2 with rows := db2.rows ++ input.map (fun t => ⟨pid, t⟩) }
    let db4 : DB := { db3 with triggerEnabled := true }
    match storeValidate (productRows db4 pid) with
    | some e => .error e
    | none => .ok (db4, productRows db4 pid)

/-- A call to `update_product_price_tiers` as one transaction.  On an
exception the handler runs `ALTER TABLE ... ENABLE TRIGGER` and re-raises;
PL/pgSQL rolls the block's database changes back when the handler is
entered, and the re-raise aborts the surrounding transaction, which also
rolls back the handler's own ALTER — so the post-call state on the error
path is exactly the pre-call state. -/
def update_product_price_tiers (db : DB) (pid : Nat) (input : List PriceTier) :
    Except StoreErr (List PriceTier) × DB :=
  match updateBody db pid input with
  | .ok (db', rows) => (.ok rows, db')
  | .error e => (.error e, db)

/-! ## Pricing-mode coordinator (`PricingModeToggle`) -/

/-- The coordinator's visible state: the `isTieredPricing` mode value the
component reports through `onModeChange`, the two data-presence props, and
the component's own `showConfirmDialog` / `pendingMode` state. -/
structure ToggleState where
  isTieredPricing : Bool
  hasSinglePriceData : Bool
  hasTieredPriceData : Bool
  showConfirmDialog : Bool
  pendingMode : Option Bool
deriving DecidableEq

/-- `handleToggle(checked)`: when the mode being left still has data, open
the confirmation dialog and remember the pending mode; otherwise apply the
mode change immediately. -/
def handleToggle (s : ToggleState) (checked : Bool) : ToggleState :=
  let hasDataInCurrentMode :=
    if checked then s.hasSinglePriceData else s.hasTieredPriceData
  if hasDataInCurrentMode then
    { s with pendingMode := some checked, showConfirmDialog := true }
  else
    { s with isTieredPricing := checked }

/-- `confirmModeChange()`: apply the pending mode (if any), close the
dialog, clear the pending mode. -/
def confirmModeChange (s : ToggleState) : ToggleState :=
  let s1 :=
    match s.pendingMode with
    | some m => { s with isTieredPricing := m }
    | none => s
  { s1 with showConfirmDialog := false, pendingMode := none }

/-- `cancelModeChange()`: close the dialog and clear the pending mode,
touching nothing else. -/
def cancelModeChange (s : ToggleState) : ToggleState :=
  { s with showConfirmDialog := false, pendingMode := none }

/-! ## Generic list lemmas -/

lemma mem_of_getLast?' {α : Type} : ∀ {l : List α} {a : α}, l.getLast? = some a → a ∈ l := by
  intro l
  induction l with
  | nil => intro a h; simp [List.getLast?] at h
  | cons x xs ih =>
    intro a h
    cases xs with
    | nil =>
      simp [List.getLast?] at h
      simp [h]
    | cons y ys =>
      rw [List.getLast?_cons_cons] at h
      exact List.mem_cons_of_mem _ (ih h)

lemma eq_or_rel_getLast_of_pairwise {α : Type} {R : α → α → Prop} :
    ∀ {l : List α} {a x : α}, l.Pairwise R → l.getLast? = some a → x ∈ l → x = a ∨ R x a := by
  intro l
  induction l with
  | nil => intro a x _ _ hx; exact absurd hx (List.not_mem_nil x)
  | cons y ys ih =>
    intro a x hp hlast hx
    obtain ⟨hy, hys⟩ := List.pairwise_cons.mp hp
    cases ys with
    | nil =>
      simp [List.getLast?] at hlast
      rcases List.mem_singleton.mp hx with rfl
      exact Or.inl hlast
    | cons z zs =>
      rw [List.getLast?_cons_cons] at hlast
      rcases List.mem_cons.mp hx with rfl | hx2
      · exact Or.inr (hy a (mem_of_getLast?' hlast))
      · exact ih hys hlast hx2

lemma exists_getD_of_mem {α : Type} {a : α} {l : List α} (d : α) (h : a ∈ l) :
    ∃ i, i < l.length ∧ l.getD i d = a := by
  obtain ⟨⟨i, hi⟩, hget⟩ := List.mem_iff_get.mp h
  refine ⟨i, hi, ?_⟩
  rw [List.getD_eq_getElem l d hi]
  simpa [List.get_eq_getElem] using hget

lemma getD_mem_of_lt {α : Type} {l : List α} {i : Nat} (d : α) (h : i < l.length) :
    l.getD i d ∈ l := by
  rw [List.getD_eq_getElem l d h]
  exact List.getElem_mem h

lemma two_le_count_of_two_getD {α : Type} [DecidableEq α] {a : α} (d : α) :
    ∀ {l : List α} {i j : Nat}, i < j → j < l.length →
      l.getD i d = a → l.getD j d = a → 2 ≤ l.count a := by
  intro l
  induction l with
  | nil => intro i j _ hj _ _; exact absurd hj (by simp)
  | cons x xs ih =>
    intro i j hij hj hi0 hj0
    cases i with
    | zero =>
      obtain ⟨j', rfl⟩ : ∃ j', j = j' + 1 := ⟨j - 1, by omega⟩
      simp only [List.getD_cons_zero] at hi0
      simp only [List.getD_cons_succ] at hj0
      have hmem : a ∈ xs := by
        have := getD_mem_of_lt d (by simpa using hj : j' < xs.length)
        rwa [hj0] at this
      subst hi0
      rw [List.count_cons_self]
      have : 1 ≤ xs.count x := List.count_pos_iff.mpr hmem
      omega
    | succ i' =>
      obtain ⟨j', rfl⟩ : ∃ j', j = j' + 1 := ⟨j - 1, by omega⟩
      simp only [List.getD_cons_succ] at hi0 hj0
      have h2 := ih (by omega : i' < j') (by simpa using hj) hi0 hj0
      rw [List.count_cons]
      omega

lemma exists_two_getD_of_count {α : Type} [DecidableEq α] (d : α) :
    ∀ {l : List α} {a : α}, 2 ≤ l.count a →
      ∃ i j, i < j ∧ j < l.length ∧ l.getD i d = a ∧ l.getD j d = a := by
  intro l
  induction l with
  | nil => intro a h; simp at h
  | cons x xs ih =>
    intro a h
    by_cases hxa : x = a
    · subst hxa
      rw [List.count_cons_self] at h
      have hmem : x ∈ xs := List.count_pos_iff.mp (by omega)
      obtain ⟨k, hk, hkd⟩ := exists_getD_of_mem d hmem
      exact ⟨0, k + 1, by omega, by simpa using hk, by simp, by simpa using hkd⟩
    · rw [List.count_cons_of_ne (fun h => hxa h.symm)] at h
      obtain ⟨i, j, hij, hj, hi0, hj0⟩ := ih h
      exact ⟨i + 1, j + 1, by omega, by simpa using hj, by simpa using hi0,
        by simpa using hj0⟩

lemma exists_two_positions_of_perm {α : Type} [DecidableEq α] {l l' : List α}
    (d : α) (hperm : l'.Perm l) {i j : Nat} (hij : i ≠ j)
    (hi : i < l.length) (hj : j < l.length) :
    ∃ p q, p ≠ q ∧ p < l'.length ∧ q < l'.length ∧
      l'.getD p d = l.getD i d ∧ l'.getD q d = l.getD j d := by
  by_cases heq : l.getD i d = l.getD j d
  · have hcount : 2 ≤ l.count (l.getD i d) := by
      rcases Nat.lt_or_ge i j with h | h
      · exact two_le_count_of_two_getD d h hj rfl heq.symm
      · exact two_le_count_of_two_getD d (by omega : j < i) hi heq.symm rfl
    have hcount' : 2 ≤ l'.count (l.getD i d) := by
      rw [hperm.count_eq]; exact hcount
    obtain ⟨p, q, hpq, hq, hp0, hq0⟩ := exists_two_getD_of_count d hcount'
    exact ⟨p, q, by omega, by omega, hq, hp0, by rw [hq0, heq]⟩
  · have hi' : l.getD i d ∈ l' := hperm.mem_iff.mpr (getD_mem_of_lt d hi)
    have hj' : l.getD j d ∈ l' := hperm.mem_iff.mpr (getD_mem_of_lt d hj)
    obtain ⟨p, hp, hp0⟩ := exists_getD_of_mem d hi'
    obtain ⟨q, hq, hq0⟩ := exists_getD_of_mem d hj'
    refine ⟨p, q, ?_, hp, hq, hp0, hq0⟩
    intro hc
    exact heq (by rw [← hp0, hc, hq0])

/-! ## Sorting facts -/

instance : IsTotal RTier (fun a b => a.quantity ≤ b.quantity) :=
  ⟨fun a b => le_total a.quantity b.quantity⟩

instance : IsTrans RTier (fun a b => a.quantity ≤ b.quantity) :=
  ⟨fun _ _ _ hab hbc => le_trans hab hbc⟩

instance : IsTotal PriceTier (fun a b => a.min_quantity ≤ b.min_quantity) :=
  ⟨fun a b => le_total a.min_quantity b.min_quantity⟩

instance : IsTrans PriceTier (fun a b => a.min_quantity ≤ b.min_quantity) :=
  ⟨fun _ _ _ hab hbc => le_trans hab hbc⟩

lemma sortRTiers_perm (l : List RTier) : (sortRTiers l).Perm l :=
  List.perm_insertionSort _ l

lemma sortRTiers_pairwise (l : List RTier) :
    (sortRTiers l).Pairwise (fun a b => a.quantity ≤ b.quantity) :=
  List.sorted_insertionSort _ l

lemma sortTiers_perm (l : List PriceTier) : (sortTiers l).Perm l :=
  List.perm_insertionSort _ l

lemma sortTiers_pairwise (l : List PriceTier) :
    (sortTiers l).Pairwise (fun a b => a.min_quantity ≤ b.min_quantity) :=
  List.sorted_insertionSort _ l

lemma sortTiers_length (l : List PriceTier) : (sortTiers l).length = l.length :=
  (sortTiers_perm l).length_eq

/-! ## Resolver characterisation -/

lemma applicableTierOf_spec {q : ℤ} {tiers : List RTier} {t : RTier}
    (h : applicableTierOf q tiers = some t) :
    t ∈ tiers ∧ t.quantity ≤ q ∧
      ∀ u ∈ tiers, u.quantity ≤ q → u.quantity ≤ t.quantity := by
  unfold applicableTierOf at h
  have htf : t ∈ (sortRTiers tiers).filter (fun u => decide (u.quantity ≤ q)) :=
    mem_of_getLast?' h
  obtain ⟨hts, hdec⟩ := List.mem_filter.mp htf
  refine ⟨(sortRTiers_perm tiers).mem_iff.mp hts, of_decide_eq_true hdec, ?_⟩
  intro u hu huq
  have hus : u ∈ sortRTiers tiers := (sortRTiers_perm tiers).mem_iff.mpr hu
  have huf : u ∈ (sortRTiers tiers).filter (fun v => decide (v.quantity ≤ q)) :=
    List.mem_filter.mpr ⟨hus, decide_eq_true huq⟩
  have hpw := (sortRTiers_pairwise tiers).filter (fun v => decide (v.quantity ≤ q))
  rcases eq_or_rel_getLast_of_pairwise hpw h huf with rfl | hrel
  · exact le_refl _
  · exact hrel

lemma applicableTierOf_isSome {q : ℤ} {tiers : List RTier}
    (hex : ∃ u ∈ tiers, u.quantity ≤ q) :
    ∃ t, applicableTierOf q tiers = some t := by
  obtain ⟨u, hu, huq⟩ := hex
  have huf : u ∈ (sortRTiers tiers).filter (fun v => decide (v.quantity ≤ q)) :=
    List.mem_filter.mpr ⟨(sortRTiers_perm tiers).mem_iff.mpr hu, decide_eq_true huq⟩
  have hne := List.ne_nil_of_mem huf
  cases hlast : ((sortRTiers tiers).filter (fun v => decide (v.quantity ≤ q))).getLast? with
  | none => exact absurd (List.getLast?_eq_none_iff.mp hlast) hne
  | some t => exact ⟨t, hlast⟩

lemma applicableTierOf_eq_none {q : ℤ} {tiers : List RTier}
    (hnm : ∀ t ∈ tiers, q < t.quantity) : applicableTierOf q tiers = none := by
  unfold applicableTierOf
  have : (sortRTiers tiers).filter (fun t => decide (t.quantity ≤ q)) = [] := by
    rw [List.filter_eq_nil_iff]
    intro t ht
    have := hnm t ((sortRTiers_perm tiers).mem_iff.mp ht)
    simp only [decide_eq_true_eq]
    omega
  rw [this]
  rfl

lemma calc_empty (q : ℤ) (b : ℚ) (d : Option ℚ) :
    calculateApplicablePrice q [] b d =
      { unitPrice := jsOr d b, totalPrice := jsOr d b * (q : ℚ), appliedTier := none,
        savings := 0, nextTier := none, nextTierSavings := 0, unitsToNextTier := 0 } :=
  rfl

lemma calc_appliedTier {tiers : List RTier} (q : ℤ) (b : ℚ) (d : Option ℚ)
    (hne : tiers ≠ []) :
    (calculateApplicablePrice q tiers b d).appliedTier = applicableTierOf q tiers := by
  unfold calculateApplicablePrice
  rw [if_neg (by simp [List.isEmpty_iff, hne])]

lemma calc_unitPrice {tiers : List RTier} (q : ℤ) (b : ℚ) (d : Option ℚ)
    (hne : tiers ≠ []) :
    (calculateApplicablePrice q tiers b d).unitPrice =
      match applicableTierOf q tiers with
      | some t => jsOr t.discounted_unit_price t.unit_price
      | none => jsOr d b := by
  unfold calculateApplicablePrice
  rw [if_neg (by simp [List.isEmpty_iff, hne])]

lemma calc_totalPrice {tiers : List RTier} (q : ℤ) (b : ℚ) (d : Option ℚ)
    (hne : tiers ≠ []) :
    (calculateApplicablePrice q tiers b d).totalPrice =
      (calculateApplicablePrice q tiers b d).unitPrice * (q : ℚ) := by
  unfold calculateApplicablePrice
  rw [if_neg (by simp [List.isEmpty_iff, hne])]

lemma calc_savings {tiers : List RTier} (q : ℤ) (b : ℚ) (d : Option ℚ)
    (hne : tiers ≠ []) :
    (calculateApplicablePrice q tiers b d).savings =
      jsOr d b * (q : ℚ) - (calculateApplicablePrice q tiers b d).totalPrice := by
  unfold calculateApplicablePrice
  rw [if_neg (by simp [List.isEmpty_iff, hne])]

lemma calc_nextTier {tiers : List RTier} (q : ℤ) (b : ℚ) (d : Option ℚ)
    (hne : tiers ≠ []) :
    (calculateApplicablePrice q tiers b d).nextTier = nextTierOf q tiers := by
  unfold calculateApplicablePrice
  rw [if_neg (by simp [List.isEmpty_iff, hne])]

/-! ## Validator error-membership lemmas -/

lemma validateTiers_of_ne_nil {l : List PriceTier} (hl : l ≠ []) :
    validateTiers l =
      startCheck (sortTiers l)
      ++ (List.range (sortTiers l).length).flatMap
          (fun i => tierChecks (sortTiers l) i ++ overlapChecks (sortTiers l) i
            ++ gapCheck (sortTiers l) i)
      ++ nullMaxCheck (sortTiers l) := by
  unfold validateTiers
  rw [if_neg (by simp [List.isEmpty_iff, hl])]

lemma mem_validateTiers_of_chunk {l : List PriceTier} (hl : l ≠ []) {i : Nat}
    (hi : i < (sortTiers l).length) {e : ValidationError}
    (he : e ∈ tierChecks (sortTiers l) i ++ overlapChecks (sortTiers l) i
      ++ gapCheck (sortTiers l) i) :
    e ∈ validateTiers l := by
  rw [validateTiers_of_ne_nil hl]
  exact List.mem_append_left _
    (List.mem_append_right _ (List.mem_flatMap.mpr ⟨i, List.mem_range.mpr hi, he⟩))

lemma ne_nil_of_lt_sort_length {l : List PriceTier} {j : Nat}
    (hj : j < (sortTiers l).length) : l ≠ [] := by
  intro h
  subst h
  simp [sortTiers, List.insertionSort] at hj

lemma mem_err_overlap {l : List PriceTier} {i j : Nat} (hij : i < j)
    (hj : j < (sortTiers l).length)
    (hov : tiersOverlap (tierAt (sortTiers l) i) (tierAt (sortTiers l) j)) :
    (⟨.overlap, .overlapBetween i j, some i⟩ : ValidationError) ∈ validateTiers l := by
  apply mem_validateTiers_of_chunk (ne_nil_of_lt_sort_length hj) (lt_trans hij hj)
  apply List.mem_append_left
  apply List.mem_append_right
  unfold overlapChecks
  apply List.mem_filterMap.mpr
  refine ⟨j, ?_, ?_⟩
  · apply List.mem_range'_1.mpr
    omega
  · rw [if_pos hov]

lemma mem_err_max {l : List PriceTier} {i : Nat} (hi : i < (sortTiers l).length)
    (hc : (tierAt (sortTiers l) i).max_quantity.elim false
      (fun m => decide (m ≤ (tierAt (sortTiers l) i).min_quantity)) = true) :
    (⟨.invalid_max, .maxMustExceedMin i, some i⟩ : ValidationError) ∈ validateTiers l := by
  apply mem_validateTiers_of_chunk (ne_nil_of_lt_sort_length hi) hi
  apply List.mem_append_left
  apply List.mem_append_left
  unfold tierChecks
  apply List.mem_append_left
  apply List.mem_append_left
  apply List.mem_append_right
  rw [if_pos hc]
  exact List.mem_singleton.mpr rfl

lemma mem_err_price {l : List PriceTier} {i : Nat} (hi : i < (sortTiers l).length)
    (hc : (tierAt (sortTiers l) i).unit_price ≤ 0) :
    (⟨.invalid_price, .priceMustBePositive i, some i⟩ : ValidationError) ∈ validateTiers l := by
  apply mem_validateTiers_of_chunk (ne_nil_of_lt_sort_length hi) hi
  apply List.mem_append_left
  apply List.mem_append_left
  unfold tierChecks
  apply List.mem_append_left
  apply List.mem_append_right
  rw [if_pos hc]
  exact List.mem_singleton.mpr rfl

lemma mem_err_discount_pos {l : List PriceTier} {i : Nat} (hi : i < (sortTiers l).length)
    {v : ℚ} (hd : (tierAt (sortTiers l) i).discounted_unit_price = some v)
    (hc : v ≤ 0) :
    (⟨.invalid_discount, .discountMustBePositive i, some i⟩ : ValidationError)
      ∈ validateTiers l := by
  apply mem_validateTiers_of_chunk (ne_nil_of_lt_sort_length hi) hi
  apply List.mem_append_left
  apply List.mem_append_left
  unfold tierChecks
  apply List.mem_append_right
  rw [hd]
  apply List.mem_append_left
  rw [if_pos hc]
  exact List.mem_singleton.mpr rfl

lemma mem_err_discount_lt {l : List PriceTier} {i : Nat} (hi : i < (sortTiers l).length)
    {v : ℚ} (hd : (tierAt (sortTiers l) i).discounted_unit_price = some v)
    (hc : (tierAt (sortTiers l) i).unit_price ≤ v) :
    (⟨.invalid_discount, .discountMustBeBelowPrice i, some i⟩ : ValidationError)
      ∈ validateTiers l := by
  apply mem_validateTiers_of_chunk (ne_nil_of_lt_sort_length hi) hi
  apply List.mem_append_left
  apply List.mem_append_left
  unfold tierChecks
  apply List.mem_append_right
  rw [hd]
  apply List.mem_append_right
  rw [if_pos hc]
  exact List.mem_singleton.mpr rfl

lemma mem_err_nullmax {l : List PriceTier} (hl : l ≠ [])
    (hc : 1 < ((sortTiers l).filter (fun t => t.max_quantity.isNone)).length) :
    (⟨.invalid_max, .onlyLastTierUnlimited, none⟩ : ValidationError) ∈ validateTiers l := by
  rw [validateTiers_of_ne_nil hl]
  apply List.mem_append_right
  unfold nullMaxCheck
  rw [if_pos hc]
  exact List.mem_singleton.mpr rfl

/-! ## Store-side lemmas -/

lemma tiersOverlap_of_sqlOverlap {t u : PriceTier} (h : sqlOverlap t u) :
    tiersOverlap t u := by
  obtain ⟨h1, h2⟩ := h
  constructor
  · cases hm : u.max_quantity with
    | none => simp [leMaxInf, hm]
    | some v =>
      rw [hm] at h1
      simpa [leMaxInf, hm] using h1
  · cases hm : t.max_quantity with
    | none => simp [leMaxInf, hm]
    | some v =>
      rw [hm] at h2
      simpa [leMaxInf, hm] using h2

lemma productRows_insert (db : DB) (pid : Nat) (input : List PriceTier) :
    productRows
      ⟨db.rows.filter (fun r => !(r.product_id == pid))
        ++ input.map (fun t => ⟨pid, t⟩), true⟩ pid = input := by
  unfold productRows
  rw [List.filter_append, List.filter_filter]
  have h1 : (db.rows.filter fun a => (a.product_id == pid) && !(a.product_id == pid)) = [] := by
    apply List.filter_eq_nil_iff.mpr
    intro a _
    simp
  have h2 : ((input.map (fun t => (⟨pid, t⟩ : TierRow))).filter
      (fun r => r.product_id == pid)) = input.map (fun t => (⟨pid, t⟩ : TierRow)) := by
    apply List.filter_eq_self.mpr
    intro a ha
    obtain ⟨t, _, rfl⟩ := List.mem_map.mp ha
    simp
  rw [h1, h2, List.nil_append, List.map_map]
  show input.map (fun t => t) = input
  simp

lemma updateBody_of_ne_nil (db : DB) (pid : Nat) {input : List PriceTier}
    (hne : input ≠ []) :
    updateBody db pid input =
      match storeValidate input with
      | some e => .error e
      | none =>
          .ok (⟨db.rows.filter (fun r => !(r.product_id == pid))
            ++ input.map (fun t => ⟨pid, t⟩), true⟩, input) := by
  unfold updateBody
  rw [if_neg (by simp [hne])]
  have hpr := productRows_insert db pid input
  simp only [hpr]

lemma storeValidate_eq_none_of_validate {l : List PriceTier} (hne : l ≠ [])
    (hok : validateTiers l = []) : storeValidate l = none := by
  have hnomem : ∀ e : ValidationError, e ∉ validateTiers l := by
    intro e he
    rw [hok] at he
    exact List.not_mem_nil e he
  unfold storeValidate
  rw [if_neg (by simp [hne])]
  rw [if_neg ?hnullmax]
  case hnullmax =>
    intro h
    have hlen : ((sortTiers l).filter (fun t => t.max_quantity.isNone)).length
        = (l.filter (fun t => t.max_quantity.isNone)).length :=
      ((sortTiers_perm l).filter _).length_eq
    exact hnomem _ (mem_err_nullmax hne (by omega))
  rw [if_neg ?hoverlap]
  case hoverlap =>
    intro h
    unfold hasOverlaps at h
    simp only [List.any_eq_true, List.mem_range, Bool.and_eq_true,
      decide_eq_true_eq] at h
    obtain ⟨i, hi, j, hj, hij, hsql⟩ := h
    have hov := tiersOverlap_of_sqlOverlap hsql
    obtain ⟨p, q', hpq, hp, hq, hp0, hq0⟩ :=
      exists_two_positions_of_perm (default : PriceTier) (sortTiers_perm l) hij hi hj
    have hovs : tiersOverlap (tierAt (sortTiers l) p) (tierAt (sortTiers l) q') := by
      unfold tierAt
      rw [hp0, hq0]
      exact hov
    rcases Nat.lt_or_ge p q' with hlt | hge
    · exact hnomem _ (mem_err_overlap hlt hq hovs)
    · have hlt : q' < p := by omega
      exact hnomem _ (mem_err_overlap hlt hp ⟨hovs.2, hovs.1⟩)
  rw [if_neg ?hminmax]
  case hminmax =>
    intro h
    simp only [List.any_eq_true] at h
    obtain ⟨t, htl, hc⟩ := h
    have hts : t ∈ sortTiers l := (sortTiers_perm l).mem_iff.mpr htl
    obtain ⟨i, hi, hit⟩ := exists_getD_of_mem default hts
    have hit' : tierAt (sortTiers l) i = t := hit
    exact hnomem _ (mem_err_max hi (by rw [hit']; exact hc))
  rw [if_neg ?hprice]
  case hprice =>
    intro h
    simp only [List.any_eq_true, Bool.or_eq_true, decide_eq_true_eq] at h
    obtain ⟨t, htl, hc⟩ := h
    have hts : t ∈ sortTiers l := (sortTiers_perm l).mem_iff.mpr htl
    obtain ⟨i, hi, hit⟩ := exists_getD_of_mem default hts
    have hit' : tierAt (sortTiers l) i = t := hit
    rcases hc with hc | hc
    · exact hnomem _ (mem_err_price hi (by rw [hit']; exact hc))
    · cases hdm : t.discounted_unit_price with
      | none => rw [hdm] at hc; simp [Option.elim] at hc
      | some v =>
        rw [hdm] at hc
        simp only [Option.elim, decide_eq_true_eq] at hc
        exact hnomem _ (mem_err_discount_pos hi (by rw [hit']; exact hdm) hc)
  rw [if_neg ?hdisc]
  case hdisc =>
    intro h
    simp only [List.any_eq_true] at h
    obtain ⟨t, htl, hc⟩ := h
    have hts : t ∈ sortTiers l := (sortTiers_perm l).mem_iff.mpr htl
    obtain ⟨i, hi, hit⟩ := exists_getD_of_mem default hts
    have hit' : tierAt (sortTiers l) i = t := hit
    cases hdm : t.discounted_unit_price with
    | none => rw [hdm] at hc; simp [Option.elim] at hc
    | some v =>
      rw [hdm] at hc
      simp only [Option.elim, decide_eq_true_eq] at hc
      exact hnomem _ (mem_err_discount_lt hi (by rw [hit']; exact hdm)
        (by rw [hit']; exact hc))

/-! ## Claim theorems -/

/-- The concrete tier list of the specification scenario, with each band's
minimum quantity as the resolver's threshold. -/
def scenarioTiers : List RTier := [⟨1, 100, none⟩, ⟨11, 90, none⟩, ⟨51, 80, none⟩]

/-- C1 (amended): for every quantity, non-empty tier list and fallback price,
when some tier's threshold is at most the quantity, the resolver applies a
tier whose threshold is maximal among those at most the quantity; it charges
that tier's `discounted_unit_price` when present and nonzero, and its
`unit_price` when the discount is absent or present as 0 (JavaScript `||`);
and the concrete scenario resolves as specified (resolve 5 = 100 with tier 1
and savings 0; resolve 11 = 90 with savings 110; resolve 100 = 80 with no
next tier). -/
theorem c1_resolver_threshold_selection (q : ℤ) (tiers : List RTier)
    (b : ℚ) (d : Option ℚ) (hq : 1 ≤ q)
    (hmatch : ∃ t ∈ tiers, t.quantity ≤ q) :
    (∃ t, (calculateApplicablePrice q tiers b d).appliedTier = some t
      ∧ t ∈ tiers ∧ t.quantity ≤ q
      ∧ (∀ u ∈ tiers, u.quantity ≤ q → u.quantity ≤ t.quantity)
      ∧ (∀ v, t.discounted_unit_price = some v → v ≠ 0 →
          (calculateApplicablePrice q tiers b d).unitPrice = v)
      ∧ ((t.discounted_unit_price = none ∨ t.discounted_unit_price = some 0) →
          (calculateApplicablePrice q tiers b d).unitPrice = t.unit_price))
    ∧ ((calculateApplicablePrice 5 scenarioTiers 100 none).unitPrice = 100
      ∧ (calculateApplicablePrice 5 scenarioTiers 100 none).appliedTier
          = some ⟨1, 100, none⟩
      ∧ (calculateApplicablePrice 5 scenarioTiers 100 none).savings = 0
      ∧ (calculateApplicablePrice 11 scenarioTiers 100 none).unitPrice = 90
      ∧ (calculateApplicablePrice 11 scenarioTiers 100 none).savings = 110
      ∧ (calculateApplicablePrice 100 scenarioTiers 100 none).unitPrice = 80
      ∧ (calculateApplicablePrice 100 scenarioTiers 100 none).nextTier = none) := by
  constructor
  · have hne : tiers ≠ [] := by
      obtain ⟨t, ht, _⟩ := hmatch
      exact List.ne_nil_of_mem ht
    obtain ⟨t, happ⟩ := applicableTierOf_isSome hmatch
    obtain ⟨htm, htq, hmax⟩ := applicableTierOf_spec happ
    refine ⟨t, ?_, htm, htq, hmax, ?_, ?_⟩
    · rw [calc_appliedTier q b d hne]
      exact happ
    · intro v hv hv0
      rw [calc_unitPrice q b d hne, happ]
      show jsOr t.discounted_unit_price t.unit_price = v
      rw [hv]
      simp [jsOr, hv0]
    · intro hcase
      rw [calc_unitPrice q b d hne, happ]
      show jsOr t.discounted_unit_price t.unit_price = t.unit_price
      rcases hcase with hc | hc <;> rw [hc] <;> simp [jsOr]
  · refine ⟨by decide, by decide, ?_, by decide, ?_, by decide, by decide⟩
    · rw [calc_savings 5 100 none (by decide), calc_totalPrice 5 100 none (by decide)]
      have h5 : (calculateApplicablePrice 5 scenarioTiers 100 none).unitPrice = 100 := by
        decide
      rw [h5]
      norm_num [jsOr]
    · rw [calc_savings 11 100 none (by decide), calc_totalPrice 11 100 none (by decide)]
      have h11 : (calculateApplicablePrice 11 scenarioTiers 100 none).unitPrice = 90 := by
        decide
      rw [h11]
      norm_num [jsOr]

/-- C1 witness: the amended theorem applied at a tier whose discounted price
is present as 0, the case the amendment is about — the applied tier is that
tier and the otherwise-branch charges its unit price 100. -/
theorem c1_resolver_threshold_selection_witness :
    (∃ t, (calculateApplicablePrice 1 [⟨1, 100, some 0⟩] 50 none).appliedTier = some t
      ∧ t ∈ [(⟨1, 100, some 0⟩ : RTier)] ∧ t.quantity ≤ 1
      ∧ (∀ u ∈ [(⟨1, 100, some 0⟩ : RTier)], u.quantity ≤ 1 → u.quantity ≤ t.quantity)
      ∧ (∀ v, t.discounted_unit_price = some v → v ≠ 0 →
          (calculateApplicablePrice 1 [⟨1, 100, some 0⟩] 50 none).unitPrice = v)
      ∧ ((t.discounted_unit_price = none ∨ t.discounted_unit_price = some 0) →
          (calculateApplicablePrice 1 [⟨1, 100, some 0⟩] 50 none).unitPrice
            = t.unit_price))
    ∧ ((calculateApplicablePrice 5 scenarioTiers 100 none).unitPrice = 100
      ∧ (calculateApplicablePrice 5 scenarioTiers 100 none).appliedTier
          = some ⟨1, 100, none⟩
      ∧ (calculateApplicablePrice 5 scenarioTiers 100 none).savings = 0
      ∧ (calculateApplicablePrice 11 scenarioTiers 100 none).unitPrice = 90
      ∧ (calculateApplicablePrice 11 scenarioTiers 100 none).savings = 110
      ∧ (calculateApplicablePrice 100 scenarioTiers 100 none).unitPrice = 80
      ∧ (calculateApplicablePrice 100 scenarioTiers 100 none).nextTier = none) :=
  c1_resolver_threshold_selection 1 [⟨1, 100, some 0⟩] 50 none (by decide) (by decide)

/-- C1 counterexample: a present but zero `discounted_unit_price` is ignored
(JavaScript `||` treats 0 as falsy), so the applied tier is charged its
`unit_price` 100, not the present discounted price 0, refuting the claim as
stated for every tier list. -/
theorem c1_counterexample :
    (calculateApplicablePrice 1 [⟨1, 100, some 0⟩] 50 none).appliedTier
        = some ⟨1, 100, some 0⟩
    ∧ (calculateApplicablePrice 1 [⟨1, 100, some 0⟩] 50 none).unitPrice = 100
    ∧ (calculateApplicablePrice 1 [⟨1, 100, some 0⟩] 50 none).unitPrice
        ≠ ((some (0 : ℚ)).getD 100) := by
  decide

/-- C2: when the input tier set fails the store-side validation (or is
empty), `update_product_price_tiers` raises and the transaction rolls back:
the whole database state, and in particular the product's persisted tiers,
are exactly as before the call. -/
theorem c2_atomic_replace_rollback (db : DB) (pid : Nat) (input : List PriceTier)
    (hfail : input = [] ∨ storeValidate input ≠ none) :
    (∃ e, (update_product_price_tiers db pid input).1 = .error e)
    ∧ (update_product_price_tiers db pid input).2 = db
    ∧ productRows (update_product_price_tiers db pid input).2 pid
        = productRows db pid := by
  have herr : ∃ e, updateBody db pid input = .error e := by
    rcases hfail with rfl | hsv
    · exact ⟨.atLeastOneTierRequired, rfl⟩
    · by_cases hne : input = []
      · subst hne
        exact ⟨.atLeastOneTierRequired, rfl⟩
      · rw [updateBody_of_ne_nil db pid hne]
        cases hs : storeValidate input with
        | none => exact absurd hs hsv
        | some e => exact ⟨e, rfl⟩
  obtain ⟨e, he⟩ := herr
  unfold update_product_price_tiers
  rw [he]
  exact ⟨⟨e, rfl⟩, rfl, rfl⟩

/-- C2 witness: replacing the tiers of product 7 with a tier priced 0 fails
and leaves the previously persisted tier untouched. -/
theorem c2_atomic_replace_rollback_witness :
    (∃ e, (update_product_price_tiers ⟨[⟨7, ⟨1, some 10, 5, none⟩⟩], true⟩ 7
        [⟨1, none, 0, none⟩]).1 = .error e)
    ∧ (update_product_price_tiers ⟨[⟨7, ⟨1, some 10, 5, none⟩⟩], true⟩ 7
        [⟨1, none, 0, none⟩]).2 = ⟨[⟨7, ⟨1, some 10, 5, none⟩⟩], true⟩
    ∧ productRows (update_product_price_tiers ⟨[⟨7, ⟨1, some 10, 5, none⟩⟩], true⟩ 7
        [⟨1, none, 0, none⟩]).2 7
      = productRows ⟨[⟨7, ⟨1, some 10, 5, none⟩⟩], true⟩ 7 :=
  c2_atomic_replace_rollback ⟨[⟨7, ⟨1, some 10, 5, none⟩⟩], true⟩ 7
    [⟨1, none, 0, none⟩] (Or.inr (by decide))

/-- C3 (amended): the two rule sets are not the same; instead the client
validator is strictly stricter on non-empty sets — whenever it returns zero
errors on a non-empty tier set, the store-side validation inside
`update_product_price_tiers` raises no exception and the call succeeds. -/
theorem c3_client_validator_stricter (db : DB) (pid : Nat) (l : List PriceTier)
    (hne : l ≠ []) (hok : validateTiers l = []) :
    (update_product_price_tiers db pid l).1 = .ok l := by
  unfold update_product_price_tiers
  rw [updateBody_of_ne_nil db pid hne, storeValidate_eq_none_of_validate hne hok]

/-- C3 witness: a valid single-tier set passes both the client validator and
the store. -/
theorem c3_client_validator_stricter_witness :
    (update_product_price_tiers ⟨[], true⟩ 1 [⟨1, none, 10, none⟩]).1
      = .ok [⟨1, none, 10, none⟩] :=
  c3_client_validator_stricter ⟨[], true⟩ 1 [⟨1, none, 10, none⟩]
    (by decide) (by decide)

/-- C3 counterexample: a single tier starting at quantity 2 is flagged by the
client validator (start-at-1 policy) but accepted by the store-side
validation, so the two rule sets are not equivalent. -/
theorem c3_counterexample :
    validateTiers [⟨2, none, 10, none⟩] ≠ []
    ∧ (update_product_price_tiers ⟨[], true⟩ 1 [⟨2, none, 10, none⟩]).1
        = .ok [⟨2, none, 10, none⟩] := by
  constructor
  · decide
  · rfl

/-- The wiring of a band tier into the resolver: the band's minimum quantity
is the threshold the resolver reads. -/
def toResolverTier (t : PriceTier) : RTier :=
  ⟨t.min_quantity, t.unit_price, t.discounted_unit_price⟩

/-- C4 (amended): for a valid TierSet whose effective unit prices are
non-increasing in `min_quantity` (bulk-discount shaped), the resolver's unit
price is monotonically non-increasing in the quantity, for quantities that
both match some tier. -/
theorem c4_resolver_monotone (tiers : List PriceTier) (b : ℚ) (d : Option ℚ)
    (q1 q2 : ℤ) (hvalid : validateTiers tiers = [])
    (hmono : ∀ t ∈ tiers, ∀ u ∈ tiers, t.min_quantity ≤ u.min_quantity →
      jsOr u.discounted_unit_price u.unit_price
        ≤ jsOr t.discounted_unit_price t.unit_price)
    (h12 : q1 < q2) (hm : ∃ t ∈ tiers, t.min_quantity ≤ q1) :
    (calculateApplicablePrice q2 (tiers.map toResolverTier) b d).unitPrice
      ≤ (calculateApplicablePrice q1 (tiers.map toResolverTier) b d).unitPrice := by
  have hmR1 : ∃ r ∈ tiers.map toResolverTier, r.quantity ≤ q1 := by
    obtain ⟨t, ht, htq⟩ := hm
    exact ⟨toResolverTier t, List.mem_map_of_mem _ ht, htq⟩
  have hmR2 : ∃ r ∈ tiers.map toResolverTier, r.quantity ≤ q2 := by
    obtain ⟨r, hr, hrq⟩ := hmR1
    exact ⟨r, hr, by omega⟩
  have hne : tiers.map toResolverTier ≠ [] := by
    obtain ⟨r, hr, _⟩ := hmR1
    exact List.ne_nil_of_mem hr
  obtain ⟨t1, h1⟩ := applicableTierOf_isSome hmR1
  obtain ⟨t2, h2⟩ := applicableTierOf_isSome hmR2
  obtain ⟨ht1m, ht1q, _⟩ := applicableTierOf_spec h1
  obtain ⟨ht2m, _, hmax2⟩ := applicableTierOf_spec h2
  have hq12 : t1.quantity ≤ t2.quantity := hmax2 t1 ht1m (by omega)
  obtain ⟨p1, hp1, hp1e⟩ := List.mem_map.mp ht1m
  obtain ⟨p2, hp2, hp2e⟩ := List.mem_map.mp ht2m
  rw [calc_unitPrice q2 b d hne, h2, calc_unitPrice q1 b d hne, h1]
  subst hp1e
  subst hp2e
  exact hmono p1 hp1 p2 hp2 hq12

/-- C4 witness: a valid two-band set with decreasing prices, resolved at
quantities 5 and 11. -/
theorem c4_resolver_monotone_witness :
    (calculateApplicablePrice 11
        ([⟨1, some 10, 100, none⟩, ⟨11, none, 90, none⟩].map toResolverTier)
        100 none).unitPrice
      ≤ (calculateApplicablePrice 5
          ([⟨1, some 10, 100, none⟩, ⟨11, none, 90, none⟩].map toResolverTier)
          100 none).unitPrice :=
  c4_resolver_monotone [⟨1, some 10, 100, none⟩, ⟨11, none, 90, none⟩]
    100 none 5 11 (by decide) (by decide) (by decide) (by decide)

/-- C4 counterexample: the validator accepts tier sets whose prices increase
with quantity, and on such a (valid) set the resolver's unit price increases
from 100 at quantity 5 to 200 at quantity 11, refuting monotonicity for
every valid TierSet. -/
theorem c4_counterexample :
    validateTiers [⟨1, some 10, 100, none⟩, ⟨11, none, 200, none⟩] = []
    ∧ ((5 : ℤ) < 11)
    ∧ (∃ t ∈ [(⟨1, some 10, 100, none⟩ : PriceTier), ⟨11, none, 200, none⟩],
        t.min_quantity ≤ (5 : ℤ))
    ∧ ¬((calculateApplicablePrice 11
          ([⟨1, some 10, 100, none⟩, ⟨11, none, 200, none⟩].map toResolverTier)
          100 none).unitPrice
        ≤ (calculateApplicablePrice 5
            ([⟨1, some 10, 100, none⟩, ⟨11, none, 200, none⟩].map toResolverTier)
            100 none).unitPrice) := by
  decide

/-- C5: for every pair of distinct tiers of the input whose bands overlap
(unbounded treated as infinity), the client validator reports an `overlap`
error whose message references both tiers' sorted indices, whatever the
order of the input list. -/
theorem c5_overlap_symmetric_exhaustive (l : List PriceTier) (t1 t2 : PriceTier)
    (h1 : t1 ∈ l) (h2 : t2 ∈ l) (hd : t1 ≠ t2 ∨ 2 ≤ l.count t1)
    (hov : tiersOverlap t1 t2) :
    ∃ i j, i < j ∧ j < (sortTiers l).length
      ∧ ((tierAt (sortTiers l) i = t1 ∧ tierAt (sortTiers l) j = t2)
        ∨ (tierAt (sortTiers l) i = t2 ∧ tierAt (sortTiers l) j = t1))
      ∧ (⟨.overlap, .overlapBetween i j, some i⟩ : ValidationError)
          ∈ validateTiers l := by
  by_cases heq : t1 = t2
  · subst heq
    have hcount : 2 ≤ l.count t1 := hd.resolve_left (by simp)
    have hcount' : 2 ≤ (sortTiers l).count t1 := by
      rw [(sortTiers_perm l).count_eq]
      exact hcount
    obtain ⟨i, j, hij, hj, hi0, hj0⟩ := exists_two_getD_of_count default hcount'
    refine ⟨i, j, hij, hj, Or.inl ⟨hi0, hj0⟩, ?_⟩
    apply mem_err_overlap hij hj
    unfold tierAt
    rw [hi0, hj0]
    exact hov
  · have h1s : t1 ∈ sortTiers l := (sortTiers_perm l).mem_iff.mpr h1
    have h2s : t2 ∈ sortTiers l := (sortTiers_perm l).mem_iff.mpr h2
    obtain ⟨p, hp, hp0⟩ := exists_getD_of_mem default h1s
    obtain ⟨q', hq, hq0⟩ := exists_getD_of_mem default h2s
    have hpq : p ≠ q' := fun hc => heq (by rw [← hp0, hc, hq0])
    rcases Nat.lt_or_ge p q' with hlt | hge
    · refine ⟨p, q', hlt, hq, Or.inl ⟨hp0, hq0⟩, ?_⟩
      apply mem_err_overlap hlt hq
      unfold tierAt
      rw [hp0, hq0]
      exact hov
    · have hlt : q' < p := by omega
      refine ⟨q', p, hlt, hp, Or.inr ⟨hq0, hp0⟩, ?_⟩
      apply mem_err_overlap hlt hp
      unfold tierAt
      rw [hp0, hq0]
      exact ⟨hov.2, hov.1⟩

/-- C5 witness: the overlapping pair `[1,20]` and `[15,30]` is reported. -/
theorem c5_overlap_symmetric_exhaustive_witness :
    ∃ i j, i < j
      ∧ j < (sortTiers [⟨1, some 20, 10, none⟩, ⟨15, some 30, 12, none⟩]).length
      ∧ ((tierAt (sortTiers [⟨1, some 20, 10, none⟩, ⟨15, some 30, 12, none⟩]) i
            = ⟨1, some 20, 10, none⟩
          ∧ tierAt (sortTiers [⟨1, some 20, 10, none⟩, ⟨15, some 30, 12, none⟩]) j
            = ⟨15, some 30, 12, none⟩)
        ∨ (tierAt (sortTiers [⟨1, some 20, 10, none⟩, ⟨15, some 30, 12, none⟩]) i
            = ⟨15, some 30, 12, none⟩
          ∧ tierAt (sortTiers [⟨1, some 20, 10, none⟩, ⟨15, some 30, 12, none⟩]) j
            = ⟨1, some 20, 10, none⟩))
      ∧ (⟨.overlap, .overlapBetween i j, some i⟩ : ValidationError)
          ∈ validateTiers [⟨1, some 20, 10, none⟩, ⟨15, some 30, 12, none⟩] :=
  c5_overlap_symmetric_exhaustive _ ⟨1, some 20, 10, none⟩ ⟨15, some 30, 12, none⟩
    (by decide) (by decide) (Or.inl (by decide)) (by decide)

/-- C6 (amended): when no tier matches the quantity (in particular for the
empty tier list), the resolver's savings are 0 — hence not negative — and
when additionally the effective fallback price is 0 the total price is 0. -/
theorem c6_savings_zero_when_unmatched (q : ℤ) (tiers : List RTier)
    (b : ℚ) (d : Option ℚ) (hnm : ∀ t ∈ tiers, q < t.quantity) :
    (calculateApplicablePrice q tiers b d).savings = 0
    ∧ (calculateApplicablePrice q tiers b d).appliedTier = none
    ∧ (jsOr d b = 0 → (calculateApplicablePrice q tiers b d).totalPrice = 0) := by
  by_cases hne : tiers = []
  · subst hne
    rw [calc_empty q b d]
    refine ⟨rfl, rfl, fun h0 => ?_⟩
    show jsOr d b * (q : ℚ) = 0
    rw [h0, zero_mul]
  · have happ : applicableTierOf q tiers = none := applicableTierOf_eq_none hnm
    have hu : (calculateApplicablePrice q tiers b d).unitPrice = jsOr d b := by
      rw [calc_unitPrice q b d hne, happ]
    refine ⟨?_, ?_, ?_⟩
    · rw [calc_savings q b d hne, calc_totalPrice q b d hne, hu]
      exact sub_self _
    · rw [calc_appliedTier q b d hne, happ]
    · intro h0
      rw [calc_totalPrice q b d hne, hu, h0, zero_mul]

/-- C6 witness: quantity 1 below the single threshold 5, fallback 0. -/
theorem c6_savings_zero_when_unmatched_witness :
    (calculateApplicablePrice 1 [⟨5, 100, none⟩] 0 none).savings = 0
    ∧ (calculateApplicablePrice 1 [⟨5, 100, none⟩] 0 none).appliedTier = none
    ∧ (jsOr none 0 = 0 →
        (calculateApplicablePrice 1 [⟨5, 100, none⟩] 0 none).totalPrice = 0) :=
  c6_savings_zero_when_unmatched 1 [⟨5, 100, none⟩] 0 none (by decide)

/-- C6 counterexample: with fallback price 0 and an applied tier priced 100,
the savings are negative (−100) and the total price is not 0, refuting the
claim for every input. -/
theorem c6_counterexample :
    (calculateApplicablePrice 1 [⟨1, 100, none⟩] 0 none).savings < 0
    ∧ (calculateApplicablePrice 1 [⟨1, 100, none⟩] 0 none).totalPrice ≠ 0 := by
  have hne : ([⟨1, 100, none⟩] : List RTier) ≠ [] := by decide
  have hu : (calculateApplicablePrice 1 [⟨1, 100, none⟩] 0 none).unitPrice = 100 := by
    decide
  constructor
  · rw [calc_savings 1 0 none hne, calc_totalPrice 1 0 none hne, hu]
    norm_num [jsOr]
  · rw [calc_totalPrice 1 0 none hne, hu]
    norm_num

/-- C7: provided the backstop trigger is enabled when the call starts, it is
enabled after any call to `update_product_price_tiers`, whether the call
returns the inserted rows or raises (the success path re-enables it
explicitly; the failure path rolls the whole transaction back to the
pre-call state). -/
theorem c7_trigger_reenabled (db : DB) (pid : Nat) (input : List PriceTier)
    (h : db.triggerEnabled = true) :
    (update_product_price_tiers db pid input).2.triggerEnabled = true := by
  have hb : ∀ db' rows, updateBody db pid input = .ok (db', rows) →
      db'.triggerEnabled = true := by
    intro db' rows hok
    by_cases hne : input = []
    · subst hne
      simp [updateBody] at hok
    · rw [updateBody_of_ne_nil db pid hne] at hok
      cases hs : storeValidate input with
      | some e =>
        rw [hs] at hok
        simp at hok
      | none =>
        rw [hs] at hok
        simp only [Except.ok.injEq, Prod.mk.injEq] at hok
        obtain ⟨h1, _⟩ := hok
        rw [← h1]
  unfold update_product_price_tiers
  cases hub : updateBody db pid input with
  | ok p =>
    obtain ⟨db', rows⟩ := p
    exact hb db' rows hub
  | error e => exact h

/-- C7 witness: the theorem at an enabled empty store and empty input. -/
theorem c7_trigger_reenabled_witness :
    (update_product_price_tiers ⟨[], true⟩ 1 []).2.triggerEnabled = true :=
  c7_trigger_reenabled ⟨[], true⟩ 1 [] rfl

/-- C8 (amended): resolving any quantity against the empty tier list returns
as unit price `baseDiscountedPrice` when supplied and nonzero, and
`basePrice` when the discounted fallback is absent or supplied as 0
(JavaScript `||`), with no applied tier, no next tier and savings 0. -/
theorem c8_empty_tiers_fallback (q : ℤ) (b : ℚ) (d : Option ℚ) (hq : 1 ≤ q) :
    (∀ v, d = some v → v ≠ 0 →
        (calculateApplicablePrice q [] b d).unitPrice = v)
    ∧ ((d = none ∨ d = some 0) →
        (calculateApplicablePrice q [] b d).unitPrice = b)
    ∧ (calculateApplicablePrice q [] b d).appliedTier = none
    ∧ (calculateApplicablePrice q [] b d).nextTier = none
    ∧ (calculateApplicablePrice q [] b d).savings = 0 := by
  refine ⟨?_, ?_, rfl, rfl, rfl⟩
  · intro v hv hv0
    show jsOr d b = v
    rw [hv]
    simp [jsOr, hv0]
  · intro hc
    show jsOr d b = b
    rcases hc with hc | hc <;> rw [hc] <;> simp [jsOr]

/-- C8 witness: the empty list with base price 100 and a discounted fallback
supplied as 0, the case the amendment is about — the unit price is 100. -/
theorem c8_empty_tiers_fallback_witness :
    (∀ v, (some (0 : ℚ) : Option ℚ) = some v → v ≠ 0 →
        (calculateApplicablePrice 1 [] 100 (some 0)).unitPrice = v)
    ∧ (((some (0 : ℚ) : Option ℚ) = none ∨ (some (0 : ℚ) : Option ℚ) = some 0) →
        (calculateApplicablePrice 1 [] 100 (some 0)).unitPrice = 100)
    ∧ (calculateApplicablePrice 1 [] 100 (some 0)).appliedTier = none
    ∧ (calculateApplicablePrice 1 [] 100 (some 0)).nextTier = none
    ∧ (calculateApplicablePrice 1 [] 100 (some 0)).savings = 0 :=
  c8_empty_tiers_fallback 1 100 (some 0) (by decide)

/-- C8 counterexample: a supplied `baseDiscountedPrice` of 0 is falsy for
JavaScript `||`, so the resolver returns `basePrice` 100 instead of the
supplied discounted fallback 0, refuting the claim for every fallback. -/
theorem c8_counterexample :
    (calculateApplicablePrice 1 [] 100 (some 0)).unitPrice = 100
    ∧ (calculateApplicablePrice 1 [] 100 (some 0)).unitPrice
        ≠ (some (0 : ℚ)).getD 100 := by
  decide

/-- C9: a mode-change request is applied immediately exactly when the data of
the mode being left is empty; otherwise the mode is unchanged, the
confirmation dialog opens with the pending mode recorded, confirming applies
the pending mode, and cancelling restores the idle dialog state while
leaving the mode and both modes' data flags untouched. -/
theorem c9_mode_change_guard (s : ToggleState) (checked : Bool) :
    ((if checked then s.hasSinglePriceData else s.hasTieredPriceData) = false →
      handleToggle s checked = { s with isTieredPricing := checked })
    ∧ ((if checked then s.hasSinglePriceData else s.hasTieredPriceData) = true →
      handleToggle s checked
          = { s with showConfirmDialog := true, pendingMode := some checked }
        ∧ confirmModeChange (handleToggle s checked)
          = { s with
              isTieredPricing := checked
              showConfirmDialog := false
              pendingMode := none }
        ∧ cancelModeChange (handleToggle s checked)
          = { s with showConfirmDialog := false, pendingMode := none }) := by
  constructor
  · intro h
    simp [handleToggle, h]
  · intro h
    refine ⟨?_, ?_, ?_⟩ <;>
      simp [handleToggle, confirmModeChange, cancelModeChange, h]

/-- C9 witness: an immediate switch to tiered with no simple-price data, and
a confirmed switch to tiered with simple-price data present. -/
theorem c9_mode_change_guard_witness :
    handleToggle ⟨false, false, true, false, none⟩ true
        = ⟨true, false, true, false, none⟩
    ∧ confirmModeChange (handleToggle ⟨false, true, false, false, none⟩ true)
        = ⟨true, true, false, false, none⟩ := by
  constructor
  · exact (c9_mode_change_guard ⟨false, false, true, false, none⟩ true).1 rfl
  · exact ((c9_mode_change_guard ⟨false, true, false, false, none⟩ true).2 rfl).2.1

/-- C10: the client validator returns no errors on the empty tier list, while
the store rejects the empty input with its dedicated error — emptiness is
never a client-side validation error. -/
theorem c10_empty_set_client_silent_store_rejects :
    validateTiers [] = []
    ∧ ∀ (db : DB) (pid : Nat),
        (update_product_price_tiers db pid []).1
          = .error StoreErr.atLeastOneTierRequired :=
  ⟨rfl, fun _ _ => rfl⟩

end TieredPricing
